import Mathlib

/-!
Verification development for the contract-analysis pipeline of this
repository (modules `nlp_processor.py`, `clause_analyzer.py`,
`risk_assessor.py`, `config.py`).

Document text is modelled as `List Char`.  Python `dict`s with a fixed key
set are modelled as association lists or as functions out of `String`;
Python numbers entering the risk score are modelled as exact rationals
(`ℚ`); operations that can raise (`dict[k]` on a missing key, calling a
constructor with the wrong number of arguments) return `Option`/`Except`.
-/

/-! ## Character helpers (ASCII, as used by the regexes in the source) -/

/-- Python `\d` (ASCII range, which covers all inputs considered here). -/
def isDigitCh (c : Char) : Bool := '0' ≤ c && c ≤ '9'

/-- The literal character class `[A-Z]`. -/
def isUpperCh (c : Char) : Bool := 'A' ≤ c && c ≤ 'Z'

/-- The literal character class `[a-z]`. -/
def isLowerCh (c : Char) : Bool := 'a' ≤ c && c ≤ 'z'

/-- Python `\s` / `str.strip` whitespace (ASCII subset). -/
def isSpaceCh (c : Char) : Bool :=
  c = ' ' || c = '\t' || c = '\n' || c = '\r' || c = '\x0b' || c = '\x0c'

/-- Python `\w` word characters (ASCII subset), used for `\b` boundaries. -/
def isWordCh (c : Char) : Bool := isDigitCh c || isUpperCh c || isLowerCh c || c = '_'

/-- Python `str.lower` on one ASCII character. -/
def pyLowerChar (c : Char) : Char :=
  if isUpperCh c then Char.ofNat (c.toNat + 32) else c

/-- Python `str.lower`. -/
def pyLower (s : List Char) : List Char := s.map pyLowerChar

/-- Python `str.strip()` (default whitespace, both ends). -/
def pyStrip (s : List Char) : List Char :=
  ((s.dropWhile isSpaceCh).reverse.dropWhile isSpaceCh).reverse

/-- Does `s` start with `pat`? -/
def listStartsWith : List Char → List Char → Bool
  | [], _ => true
  | _ :: _, [] => false
  | p :: ps, c :: cs => p = c && listStartsWith ps cs

/-- Python `pat in s` (substring containment). -/
def isSubstrOf (pat : List Char) : List Char → Bool
  | [] => listStartsWith pat []
  | c :: cs => listStartsWith pat (c :: cs) || isSubstrOf pat cs

/-! ## Clause Segmenter — `NLPProcessor.extract_clauses`
(`src/modules/nlp_processor.py`, lines 99–147)

The method runs two `re.finditer` passes and, when both yield nothing,
falls back to paragraph splitting.  The two regexes are transcribed here
as deterministic matchers; each point where the original pattern could in
principle backtrack is either covered (the `\s+` / lazy-body interplay of
the lettered pattern) or provably irrelevant (all other repetitions end
at a character that can never satisfy the following sub-pattern).
-/

/-- Consume a maximal run of `\d` characters. -/
def munchDigits : List Char → (List Char × List Char)
  | [] => ([], [])
  | c :: cs =>
    if isDigitCh c then
      let (d, r) := munchDigits cs
      (c :: d, r)
    else ([], c :: cs)

/-- Consume a maximal run of `\s` characters. -/
def munchSpaces : List Char → (List Char × List Char)
  | [] => ([], [])
  | c :: cs =>
    if isSpaceCh c then
      let (d, r) := munchSpaces cs
      (c :: d, r)
    else ([], c :: cs)

mutual

/-- Greedy parse of `(?:\d+\.?)*` (the tail of capture group 1 of the
numbered-section pattern): zero or more iterations of digits followed by
an optional dot.  Entered at the possible start of an iteration. -/
def numIter : List Char → (List Char × List Char)
  | [] => ([], [])
  | c :: cs =>
    if isDigitCh c then
      let (t, r) := numIterD cs
      (c :: t, r)
    else ([], c :: cs)

/-- `numIter`, after at least one digit of the current iteration. -/
def numIterD : List Char → (List Char × List Char)
  | [] => ([], [])
  | c :: cs =>
    if isDigitCh c then
      let (t, r) := numIterD cs
      (c :: t, r)
    else if c = '.' then
      let (t, r) := numIter cs
      (c :: t, r)
    else ([], c :: cs)

end

/-- Capture group 1 of the numbered pattern: `\d+\.(?:\d+\.?)*`.
Backtracking inside this group can never rescue a failed match, because
every character it may give back is a digit or a dot and the following
sub-pattern `\s+` only accepts whitespace; so the greedy parse is exact. -/
def parseNumGroup1 (s : List Char) : Option (List Char × List Char) :=
  let (d, r1) := munchDigits s
  if d.isEmpty then none
  else
    match r1 with
    | '.' :: r2 =>
      let (t, r3) := numIter r2
      some (d ++ '.' :: t, r3)
    | _ => none

/-- `\n\d+\.` — the first alternative of the numbered lookahead,
after the newline. -/
def startsNumToken (s : List Char) : Bool :=
  let (d, r) := munchDigits s
  !d.isEmpty &&
    match r with
    | '.' :: _ => true
    | _ => false

/-- `\n[A-Z]{3,}` — the second alternative of the numbered lookahead,
after the newline. -/
def startsCaps3 : List Char → Bool
  | a :: b :: c :: _ => isUpperCh a && isUpperCh b && isUpperCh c
  | _ => false

/-- The lookahead `(?=\n\d+\.|\n[A-Z]{3,}|\Z)` of the numbered pattern. -/
def numLookahead : List Char → Bool
  | [] => true
  | '\n' :: r => startsNumToken r || startsCaps3 r
  | _ => false

/-- The lazy body `[^\n]+?` of the numbered pattern: consume at least one
non-newline character, stopping at the first position where the
lookahead succeeds.  Returns the consumed body and the rest. -/
def bodyScanNum : List Char → Option (List Char × List Char)
  | [] => none
  | c :: cs =>
    if c = '\n' then none
    else if numLookahead cs then some ([c], cs)
    else (bodyScanNum cs).map (fun p => (c :: p.1, p.2))

/-- One attempt of the numbered pattern after its `(?:^|\n)` prefix:
`(\d+\.(?:\d+\.?)*)\s+([A-Z][^\n]+?)(?=\n\d+\.|\n[A-Z]{3,}|\Z)`.
Giving back characters of `\s+` cannot help (the next sub-pattern
`[A-Z]` never matches whitespace), so the maximal munch is exact.
Returns (group 1, group 2, rest of the text after the match). -/
def numCore (s : List Char) : Option (List Char × List Char × List Char) :=
  match parseNumGroup1 s with
  | none => none
  | some (g1, r1) =>
    if (munchSpaces r1).1.isEmpty then none
    else
      match (munchSpaces r1).2 with
      | c :: r3 =>
        if isUpperCh c then
          (bodyScanNum r3).map (fun p => (g1, c :: p.1, p.2))
        else none
      | [] => none

/-- The `(?:^|\n)` prefix (with `re.MULTILINE`, `^` matches at the start
of the text and just after any newline): try the zero-width `^` branch
first, then the branch consuming a literal newline.  `als` says whether
the current position is at the text start or preceded by a newline. -/
def matchNumberedAt (als : Bool) (s : List Char) :
    Option (List Char × List Char × List Char) :=
  match (if als then numCore s else none) with
  | some m => some m
  | none =>
    match s with
    | '\n' :: t => numCore t
    | _ => none

/-- `re.finditer` scan for the numbered pattern: try each start position
left to right, and resume after the end of each match (the lookahead is
zero-width, so the match ends after group 2).  One unit of fuel is spent
per scan step; every step consumes at least one character, so
`text.length + 1` fuel is exact.  After a match the previous character is
the last body character, which is never a newline. -/
def scanNumbered : Nat → Bool → List Char → List (List Char × List Char)
  | 0, _, _ => []
  | fuel + 1, als, s =>
    match matchNumberedAt als s with
    | some m => (m.1, m.2.1) :: scanNumbered fuel false m.2.2
    | none =>
      match s with
      | [] => []
      | c :: cs => scanNumbered fuel (c = '\n') cs

/-- `\n[a-z]\)` — first alternative of the lettered lookahead, after the
newline. -/
def startsLetToken : List Char → Bool
  | a :: ')' :: _ => isLowerCh a
  | _ => false

/-- The lookahead `(?=\n[a-z]\)|\n\d+\.|\Z)` of the lettered pattern. -/
def letLookahead : List Char → Bool
  | [] => true
  | '\n' :: r => startsLetToken r || startsNumToken r
  | _ => false

/-- The lazy body `[^\n]+?` of the lettered pattern. -/
def bodyScanLet : List Char → Option (List Char × List Char)
  | [] => none
  | c :: cs =>
    if c = '\n' then none
    else if letLookahead cs then some ([c], cs)
    else (bodyScanLet cs).map (fun p => (c :: p.1, p.2))

/-- Greedy `\s+` before the lettered body, with backtracking: the body
class `[^\n]` does accept space characters, so when the body fails at the
maximal-munch position the engine gives back one whitespace character at
a time (down to the single mandatory one) and retries.  `revSp` holds the
currently consumed whitespace in reverse order. -/
def tryBodyGreedy : List Char → List Char → Option (List Char × List Char)
  | revSp, r =>
    match bodyScanLet r with
    | some p => some p
    | none =>
      match revSp with
      | [] => none
      | [_] => none
      | c :: revSp2 => tryBodyGreedy revSp2 (c :: r)

/-- One attempt of the lettered pattern after its `(?:^|\n)` prefix:
`([a-z]\))\s+([^\n]+?)(?=\n[a-z]\)|\n\d+\.|\Z)`. -/
def letCore : List Char → Option (List Char × List Char × List Char)
  | a :: ')' :: r1 =>
    if isLowerCh a then
      let (sp, r2) := munchSpaces r1
      if sp.isEmpty then none
      else (tryBodyGreedy sp.reverse r2).map (fun p => ([a, ')'], p.1, p.2))
    else none
  | _ => none

/-- The `(?:^|\n)` prefix for the lettered pattern. -/
def matchLetteredAt (als : Bool) (s : List Char) :
    Option (List Char × List Char × List Char) :=
  match (if als then letCore s else none) with
  | some m => some m
  | none =>
    match s with
    | '\n' :: t => letCore t
    | _ => none

/-- `re.finditer` scan for the lettered pattern. -/
def scanLettered : Nat → Bool → List Char → List (List Char × List Char)
  | 0, _, _ => []
  | fuel + 1, als, s =>
    match matchLetteredAt als s with
    | some m => (m.1, m.2.1) :: scanLettered fuel false m.2.2
    | none =>
      match s with
      | [] => []
      | c :: cs => scanLettered fuel (c = '\n') cs

/-- A clause record as produced by `extract_clauses`
(keys `clause_id`, `text`, `type`). -/
structure Clause where
  clause_id : List Char
  text : List Char
  ctype : String
  deriving DecidableEq, Repr

/-- Python `text.split('\n\n')`: split on leftmost non-overlapping
occurrences of a blank-line separator. -/
def splitNN : List Char → List (List Char)
  | [] => [[]]
  | '\n' :: '\n' :: rest => [] :: splitNN rest
  | c :: cs =>
    match splitNN cs with
    | p :: ps => (c :: p) :: ps
    | [] => [[c]]

/-- The paragraph fallback loop of `extract_clauses`: `for i, para in
enumerate(paragraphs): if para.strip() and len(para.strip()) > 50: ...`
with id `f"P{i+1}"`.  `i` is the index within the full paragraph list,
not within the kept clauses. -/
def paraClauses (i : Nat) : List (List Char) → List Clause
  | [] => []
  | p :: ps =>
    let s := pyStrip p
    (if !s.isEmpty && 50 < s.length then
      [{ clause_id := 'P' :: Nat.toDigits 10 (i + 1), text := s, ctype := "paragraph" }]
     else []) ++ paraClauses (i + 1) ps

/-- `NLPProcessor.extract_clauses`: numbered matches, then lettered
matches, then — only if both passes produced nothing — the paragraph
fallback. -/
def extractClauses (text : List Char) : List Clause :=
  let numbered := (scanNumbered (text.length + 1) true text).map
    (fun m => { clause_id := m.1, text := pyStrip m.2, ctype := "numbered" : Clause })
  let lettered := (scanLettered (text.length + 1) true text).map
    (fun m => { clause_id := m.1, text := pyStrip m.2, ctype := "lettered" : Clause })
  let clauses := numbered ++ lettered
  if clauses.isEmpty then paraClauses 0 (splitNN text) else clauses

/-! ## Clause Classifier — `ClauseAnalyzer._classify_clause_type`
(`src/modules/clause_analyzer.py`, lines 17–67 and 123–138) -/

/-- The `clause_keywords` table from `ClauseAnalyzer.__init__`, in its
declaration (= dict insertion) order. -/
def clauseKeywords : List (String × List String) :=
  [("Payment Terms",
    ["payment", "fee", "compensation", "remuneration", "salary",
     "invoice", "due", "price", "cost", "charge"]),
   ("Termination",
    ["terminate", "termination", "cancel", "cancellation", "end",
     "expire", "cessation", "dissolve", "dissolution"]),
   ("Indemnity",
    ["indemnify", "indemnification", "hold harmless", "defend",
     "protect", "compensate for loss"]),
   ("Confidentiality",
    ["confidential", "secret", "proprietary", "non-disclosure",
     "nda", "confidentiality"]),
   ("Intellectual Property",
    ["intellectual property", "copyright", "patent", "trademark",
     "ip rights", "ownership", "proprietary rights"]),
   ("Liability",
    ["liability", "liable", "responsible", "responsibility",
     "damages", "accountable"]),
   ("Dispute Resolution",
    ["dispute", "arbitration", "mediation", "litigation",
     "court", "jurisdiction", "governing law"]),
   ("Force Majeure",
    ["force majeure", "act of god", "unforeseeable",
     "beyond control", "natural disaster"]),
   ("Warranties",
    ["warrant", "warranty", "guarantee", "represent",
     "representation", "assure", "certification"]),
   ("Non-compete",
    ["non-compete", "non-competition", "restrictive covenant",
     "compete", "competitive"]),
   ("Auto-Renewal",
    ["auto-renew", "automatic renewal", "automatically renew",
     "extend", "extension"]),
   ("Lock-in Period",
    ["lock-in", "lock in period", "minimum term",
     "committed period"])]

/-- `sum(1 for keyword in keywords if keyword in clause_lower)`. -/
def countKeywords (lowered : List Char) (kws : List String) : Nat :=
  kws.countP (fun k => isSubstrOf k.data lowered)

/-- Python `max(pairs, key=lambda x: x[1])` seeded with a first element:
the running best is replaced only on a strictly greater value, so the
first of any tied maxima wins. -/
def pyMax (b : String × Nat) (l : List (String × Nat)) : String × Nat :=
  l.foldl (fun best x => if x.2 > best.2 then x else best) b

/-- The selection step of `_classify_clause_type`: keep the types with a
non-zero score (dict comprehension in insertion order), return the first
maximal one, or `"General Provisions"` when no type scored. -/
def pySelect (pairs : List (String × Nat)) : String :=
  match pairs.filter (fun p => 0 < p.2) with
  | [] => "General Provisions"
  | h :: t => (pyMax h t).1

/-- `ClauseAnalyzer._classify_clause_type`. -/
def classifyClauseType (text : List Char) : String :=
  pySelect (clauseKeywords.map (fun p => (p.1, countKeywords (pyLower text) p.2)))

/-! ## A small regex engine for the risk-pattern catalog

`_detect_clause_risks` only asks whether `re.search` finds a match
(`re.search(...) is not None`), so a nondeterministic acceptance test is
an exact model: Python's backtracking search succeeds iff some
decomposition matches.  The engine supports exactly the constructs the
ten patterns use: literals, character predicates, alternation,
concatenation, greedy repetition and the zero-width `\b`. -/

inductive Re where
  | fail
  | eps
  | charP (p : Char → Bool)
  | cat (a b : Re)
  | alt (a b : Re)
  | star (a : Re)
  | wordB

/-- Is there a word boundary between `prev` and the next character? -/
def atWordBoundary (prev : Option Char) (rest : List Char) : Bool :=
  let pw := match prev with | some c => isWordCh c | none => false
  let nw := match rest with | c :: _ => isWordCh c | [] => false
  pw != nw

/-- Size of a pattern, used to budget the matcher's recursion depth. -/
def reSize : Re → Nat
  | .fail | .eps | .charP _ | .wordB => 1
  | .cat a b | .alt a b => reSize a + reSize b + 1
  | .star a => reSize a + 1

/-- Backtracking acceptance: can `r` consume a prefix of `rest` such
that the continuation `k` accepts what remains?  `prev` is the character
before the current position (for `\b`).  One unit of fuel is spent per
recursive call, so `fuel` bounds the recursion depth; along any path the
matcher either descends one pattern node or consumes input (every
starred sub-pattern of the catalog consumes at least one character per
iteration), so the budget supplied by `reSearchFrom` below is never
exhausted and the acceptance test is exact. -/
def reMatch : Nat → Re → Option Char → List Char →
    (Option Char → List Char → Bool) → Bool
  | 0, _, _, _, _ => false
  | _ + 1, .fail, _, _, _ => false
  | _ + 1, .eps, prev, rest, k => k prev rest
  | _ + 1, .charP p, _, rest, k =>
    match rest with
    | [] => false
    | c :: cs => p c && k (some c) cs
  | fuel + 1, .cat a b, prev, rest, k =>
    reMatch fuel a prev rest (fun p r => reMatch fuel b p r k)
  | fuel + 1, .alt a b, prev, rest, k =>
    reMatch fuel a prev rest k || reMatch fuel b prev rest k
  | _ + 1, .wordB, prev, rest, k => atWordBoundary prev rest && k prev rest
  | fuel + 1, .star a, prev, rest, k =>
    k prev rest || reMatch fuel a prev rest (fun p r => reMatch fuel (.star a) p r k)

/-- Scan helper for `reSearch`: try a match at every position. -/
def reSearchFrom (r : Re) (prev : Option Char) : List Char → Bool
  | [] => reMatch (reSize r * 2 + 2) r prev [] (fun _ _ => true)
  | c :: cs =>
    reMatch (reSize r * (cs.length + 3) + 2) r prev (c :: cs) (fun _ _ => true) ||
      reSearchFrom r (some c) cs

/-- `re.search(r, s) is not None`: a match may start at any position. -/
def reSearch (r : Re) (s : List Char) : Bool :=
  reSearchFrom r none s

/-- A literal string. -/
def rlit (s : String) : Re :=
  s.data.foldr (fun c acc => .cat (.charP (fun x => x = c)) acc) .eps

/-- Alternation over a list (left-biased, like the `|` chain). -/
def raltL (l : List Re) : Re := l.foldr .alt .fail

/-- Concatenation of a list of pieces. -/
def rseq (l : List Re) : Re := l.foldr .cat .eps

/-- `\s+`. -/
def rsp : Re := .cat (.charP isSpaceCh) (.star (.charP isSpaceCh))

/-- `X?`. -/
def ropt (r : Re) : Re := .alt r .eps

/-! ## Risk Detector — `ClauseAnalyzer._detect_clause_risks`
(`src/modules/clause_analyzer.py`, lines 144–236) -/

/-- One finding, as appended to the `risks` list. -/
structure RiskFinding where
  risk_type : String
  severity : String
  category : String
  description : String
  deriving DecidableEq, Repr

/-- One entry of the `risk_patterns` dict. -/
structure RiskPattern where
  name : String
  re : Re
  severity : String
  category : String

/-- The `risk_patterns` catalog, in declaration order, each regex
transcribed from the source. -/
def riskPatterns : List RiskPattern :=
  [ -- `\b(unlimited|without limit|no cap|uncapped)\s+(?:liability|damages|obligation)`
   { name := "Unlimited Liability", severity := "HIGH", category := "liability",
     re := rseq [.wordB,
       raltL [rlit "unlimited", rlit "without limit", rlit "no cap", rlit "uncapped"],
       rsp, raltL [rlit "liability", rlit "damages", rlit "obligation"]] },
   -- `\b(penalty|liquidated damages|forfeit|fine)\b`
   { name := "Harsh Penalties", severity := "MEDIUM", category := "penalty_clauses",
     re := rseq [.wordB,
       raltL [rlit "penalty", rlit "liquidated damages", rlit "forfeit", rlit "fine"],
       .wordB] },
   -- `\b(?:may|can|shall)\s+terminate\s+(?:at|with)\s+(?:any\s+time|will|discretion)`
   { name := "Unilateral Termination", severity := "HIGH", category := "unilateral_termination",
     re := rseq [.wordB, raltL [rlit "may", rlit "can", rlit "shall"], rsp,
       rlit "terminate", rsp, raltL [rlit "at", rlit "with"], rsp,
       raltL [rseq [rlit "any", rsp, rlit "time"], rlit "will", rlit "discretion"]] },
   -- `\b(?:automatically|auto)\s+(?:renew|extend|continue)`
   { name := "Auto-Renewal", severity := "MEDIUM", category := "auto_renewal",
     re := rseq [.wordB, raltL [rlit "automatically", rlit "auto"], rsp,
       raltL [rlit "renew", rlit "extend", rlit "continue"]] },
   -- `\bindemnify\s+(?:and\s+hold\s+harmless|from\s+(?:any|all))`
   { name := "Broad Indemnity", severity := "HIGH", category := "indemnity",
     re := rseq [.wordB, rlit "indemnify", rsp,
       raltL [rseq [rlit "and", rsp, rlit "hold", rsp, rlit "harmless"],
              rseq [rlit "from", rsp, raltL [rlit "any", rlit "all"]]]] },
   -- `\b(?:transfer|assign|convey)\s+(?:all|any)?\s*(?:intellectual\s+property|ip|copyright|patent)`
   { name := "IP Transfer", severity := "HIGH", category := "non_compete",
     re := rseq [.wordB, raltL [rlit "transfer", rlit "assign", rlit "convey"], rsp,
       ropt (raltL [rlit "all", rlit "any"]), .star (.charP isSpaceCh),
       raltL [rseq [rlit "intellectual", rsp, rlit "property"],
              rlit "ip", rlit "copyright", rlit "patent"]] },
   -- `\bnon-compete|restrictive\s+covenant|not\s+compete`
   -- (the `\b` binds only to the first alternative)
   { name := "Non-Compete", severity := "MEDIUM", category := "non_compete",
     re := raltL [rseq [.wordB, rlit "non-compete"],
       rseq [rlit "restrictive", rsp, rlit "covenant"],
       rseq [rlit "not", rsp, rlit "compete"]] },
   -- `\b(?:interest|penalty|charge)\s+(?:on|for)\s+(?:late|delayed|overdue)\s+payment`
   { name := "Late Payment", severity := "MEDIUM", category := "payment_terms",
     re := rseq [.wordB, raltL [rlit "interest", rlit "penalty", rlit "charge"], rsp,
       raltL [rlit "on", rlit "for"], rsp,
       raltL [rlit "late", rlit "delayed", rlit "overdue"], rsp, rlit "payment"] },
   -- `\b(?:exclusive|sole)\s+jurisdiction`
   { name := "Jurisdiction Issues", severity := "MEDIUM", category := "arbitration",
     re := rseq [.wordB, raltL [rlit "exclusive", rlit "sole"], rsp, rlit "jurisdiction"] },
   -- `\b(?:not|no|limited)\s+(?:liable|responsibility|obligation)`
   { name := "Liability Limitation", severity := "MEDIUM", category := "liability",
     re := rseq [.wordB, raltL [rlit "not", rlit "no", rlit "limited"], rsp,
       raltL [rlit "liable", rlit "responsibility", rlit "obligation"]] }]

/-- The pattern-scan loop of `_detect_clause_risks`. -/
def patternFindings (lowered : List Char) : List RiskFinding :=
  riskPatterns.filterMap (fun q =>
    if reSearch q.re lowered then
      some { risk_type := q.name, severity := q.severity, category := q.category,
             description := "Clause contains " ++ String.mk (pyLower q.name.data) ++ " language" }
    else none)

/-- `ClauseAnalyzer._detect_clause_risks`: the regex catalog followed by
the two clause-type-conditional rules. -/
def detectClauseRisks (text : List Char) (ctype : String) : List RiskFinding :=
  let lowered := pyLower text
  patternFindings lowered ++
    (if ctype = "Termination" then
      (if isSubstrOf "without cause".data lowered || isSubstrOf "at will".data lowered then
        [{ risk_type := "Termination Without Cause", severity := "HIGH",
           category := "unilateral_termination",
           description := "Contract can be terminated without specific cause" }]
       else [])
     else []) ++
    (if ctype = "Payment Terms" then
      (if isSubstrOf "advance".data lowered || isSubstrOf "upfront".data lowered then
        [{ risk_type := "Advance Payment", severity := "MEDIUM",
           category := "payment_terms",
           description := "Requires advance or upfront payment" }]
       else [])
     else [])

/-! ## Analyzed clauses and the Unfavorable-Clause Selector —
`ClauseAnalyzer.identify_unfavorable_clauses`
(`src/modules/clause_analyzer.py`, lines 238–270) -/

/-- One ambiguity finding as produced by
`NLPProcessor.detect_ambiguities`; only the number of findings per clause
matters downstream. -/
structure Ambiguity where
  phrase : String
  context : String
  position : Nat
  reason : String
  deriving DecidableEq, Repr

/-- One analyzed clause as produced by `ClauseAnalyzer.analyze_clauses`
(the fields consumed by the selector and the risk assessor). -/
structure AnalyzedClause where
  clause_id : String
  clause_type : String
  risks : List RiskFinding
  ambiguities : List Ambiguity
  original_text : String
  deriving DecidableEq, Repr

/-- One entry of the unfavorable-clause report. -/
structure UnfavorableEntry where
  clause_id : String
  clause_type : String
  reasons : List String
  text : String
  severity : String
  deriving DecidableEq, Repr

/-- The loop body of `identify_unfavorable_clauses` for one clause:
high-severity findings first, `elif` more than two ambiguities.  The text
preview is `clause["original_text"][:200] + "..."` in both branches. -/
def selectUnfavorable (c : AnalyzedClause) : Option UnfavorableEntry :=
  let highRisks := c.risks.filter (fun r => r.severity = "HIGH")
  if !highRisks.isEmpty then
    some { clause_id := c.clause_id, clause_type := c.clause_type,
           reasons := highRisks.map (fun r => r.risk_type),
           text := String.mk (c.original_text.data.take 200) ++ "...", severity := "HIGH" }
  else if 2 < c.ambiguities.length then
    some { clause_id := c.clause_id, clause_type := c.clause_type,
           reasons := ["Multiple Ambiguous Terms"],
           text := String.mk (c.original_text.data.take 200) ++ "...", severity := "MEDIUM" }
  else none

/-- `ClauseAnalyzer.identify_unfavorable_clauses`. -/
def identifyUnfavorableClauses (clauses : List AnalyzedClause) : List UnfavorableEntry :=
  clauses.filterMap selectUnfavorable

/-! ## Risk Aggregator/Scorer — `RiskAssessor.assess_contract_risk`
(`src/modules/risk_assessor.py`, lines 12–112, and `config.py`)

Python float arithmetic is modelled by exact rationals.  The two places
where the source can raise a `KeyError` — `RISK_LEVELS[severity]` and
`risk_breakdown[category]` on the NLP path — are modelled by `Option`;
the LLM path uses `RISK_LEVELS.get(severity, RISK_LEVELS["MEDIUM"])` and
an inferred category, so it cannot fail. -/

/-- `RISK_LEVELS[·]["score"]` from `config.py`. -/
def riskLevelScores : List (String × ℚ) := [("LOW", 1), ("MEDIUM", 2), ("HIGH", 3)]

/-- `RISK_LEVELS[severity]["score"]`: raises (`none`) on other keys. -/
def severityScoreStrict (s : String) : Option ℚ :=
  (riskLevelScores.find? (fun p => p.1 = s)).map (fun p => p.2)

/-- `RISK_LEVELS.get(severity, RISK_LEVELS["MEDIUM"])["score"]`. -/
def severityScoreDefault (s : String) : ℚ :=
  ((riskLevelScores.find? (fun p => p.1 = s)).map (fun p => p.2)).getD 2

/-- `self.risk_weights` from `RiskAssessor.__init__`. -/
def riskWeights : List (String × ℚ) :=
  [("penalty_clauses", 1.2), ("indemnity", 1.5), ("unilateral_termination", 1.8),
   ("arbitration", 1.0), ("auto_renewal", 1.3), ("non_compete", 1.4),
   ("payment_terms", 1.2), ("liability", 1.6), ("confidentiality", 0.8)]

/-- `self.risk_weights.get(category, 1.0)`. -/
def catWeight (c : String) : ℚ :=
  ((riskWeights.find? (fun p => p.1 = c)).map (fun p => p.2)).getD 1

/-- The keys of `risk_breakdown`: `RISK_CATEGORIES.keys()` from
`config.py` in declaration order, plus `"other"`. -/
def breakdownKeys : List String :=
  ["penalty_clauses", "indemnity", "unilateral_termination", "arbitration",
   "auto_renewal", "non_compete", "payment_terms", "liability",
   "confidentiality", "other"]

/-- One entry appended to a `risk_breakdown` bucket. -/
structure BreakdownEntry where
  clause_id : String
  risk_type : String
  severity : String
  score : ℚ
  description : String
  deriving DecidableEq, Repr

/-- `risk_breakdown`: a dict with the fixed key set `breakdownKeys`,
modelled as a total function (reads of other keys never occur without
the membership check below). -/
def Breakdown : Type := String → List BreakdownEntry

/-- The initial breakdown: an empty bucket per key. -/
def initBreakdown : Breakdown := fun _ => []

/-- `risk_breakdown[category].append(entry)`: `KeyError` (`none`) when
`category` is not a key of the dict. -/
def bdAppend (b : Breakdown) (cat : String) (e : BreakdownEntry) : Option Breakdown :=
  if cat ∈ breakdownKeys then
    some (fun k => if k = cat then b k ++ [e] else b k)
  else none

/-- The inner loop of the NLP-risk pass for one clause: score each
finding (`RISK_LEVELS[severity]["score"] * weight`), accumulate the
total and append to the breakdown. -/
def foldRisks (cid : String) (acc : ℚ × Breakdown) :
    List RiskFinding → Option (ℚ × Breakdown)
  | [] => some acc
  | r :: rs =>
    match severityScoreStrict r.severity with
    | none => none
    | some s =>
      let sc := s * catWeight r.category
      match bdAppend acc.2 r.category
        { clause_id := cid, risk_type := r.risk_type, severity := r.severity,
          score := sc, description := r.description } with
      | none => none
      | some b => foldRisks cid (acc.1 + sc, b) rs

/-- The outer loop of the NLP-risk pass. -/
def foldClauses (acc : ℚ × Breakdown) :
    List AnalyzedClause → Option (ℚ × Breakdown)
  | [] => some acc
  | c :: cs =>
    match foldRisks c.clause_id acc c.risks with
    | none => none
    | some acc2 => foldClauses acc2 cs

/-- An LLM-supplied risk (`{type, severity, description}`); the dict key
`type` is spelled `rtype` here. -/
structure LLMRisk where
  rtype : String
  severity : String
  description : String
  deriving DecidableEq, Repr

/-- `RiskAssessor._categorize_llm_risk`: the keyword if/elif chain. -/
def categorizeLLMRisk (riskType : String) : String :=
  let l := String.mk (pyLower riskType.data)
  if isSubstrOf "payment".data l.data || isSubstrOf "fee".data l.data then "payment_terms"
  else if isSubstrOf "terminat".data l.data then "unilateral_termination"
  else if isSubstrOf "indemnity".data l.data || isSubstrOf "indemnif".data l.data then "indemnity"
  else if isSubstrOf "liability".data l.data || isSubstrOf "liable".data l.data then "liability"
  else if isSubstrOf "penalty".data l.data || isSubstrOf "penalt".data l.data then "penalty_clauses"
  else if isSubstrOf "compete".data l.data || isSubstrOf "non-compete".data l.data then "non_compete"
  else if isSubstrOf "renewal".data l.data || isSubstrOf "renew".data l.data then "auto_renewal"
  else if isSubstrOf "arbitration".data l.data || isSubstrOf "jurisdiction".data l.data then "arbitration"
  else if isSubstrOf "confidential".data l.data then "confidentiality"
  else "other"

/-- The LLM-risk pass: severity defaults to MEDIUM for unknown strings,
the category is inferred, the breakdown entry keeps the original
severity string and uses clause id `"LLM Analysis"`. -/
def foldLLM (acc : ℚ × Breakdown) : List LLMRisk → Option (ℚ × Breakdown)
  | [] => some acc
  | r :: rs =>
    let cat := categorizeLLMRisk r.rtype
    let sc := severityScoreDefault r.severity * catWeight cat
    match bdAppend acc.2 cat
      { clause_id := "LLM Analysis", risk_type := r.rtype, severity := r.severity,
        score := sc, description := r.description } with
    | none => none
    | some b => foldLLM (acc.1 + sc, b) rs

/-- Round-half-to-even of a rational to an integer (the rounding used by
Python's builtin `round`). -/
def roundHalfEven (q : ℚ) : ℤ :=
  let f := ⌊q⌋
  let r := q - f
  if r < 1/2 then f
  else if 1/2 < r then f + 1
  else if Even f then f else f + 1

/-- Python `round(q, 2)`. -/
def round2 (q : ℚ) : ℚ := (roundHalfEven (q * 100) : ℚ) / 100

/-- `RiskAssessor._determine_risk_level`. -/
def determineRiskLevel (score : ℚ) : String :=
  if 70 ≤ score then "HIGH" else if 40 ≤ score then "MEDIUM" else "LOW"

/-- The document-level risk assessment (the fields of the returned dict
that carry data; the derived display strings `risk_summary` and
`recommendation` and the `high_priority_risks` projection of the
breakdown are omitted). -/
structure Assessment where
  overall_score : ℚ
  overall_level : String
  total_risks_found : Nat
  risk_breakdown : Breakdown

/-- `RiskAssessor.assess_contract_risk`.  The source accumulates the
total and the breakdown in one pass and would raise at the first
ill-formed NLP finding; splitting the passes is extensionally the same
in the `Option` model.  `llm_risks=None` and `llm_risks=[]` both skip
the LLM pass (`if llm_risks:`), which `foldLLM [] = some` also models. -/
def assessContractRisk (clauses : List AnalyzedClause)
    (llmRisks : Option (List LLMRisk)) : Option Assessment :=
  match foldClauses (0, initBreakdown) clauses with
  | none => none
  | some acc1 =>
    match (match llmRisks with
           | some l => foldLLM acc1 l
           | none => some acc1) with
    | none => none
    | some acc2 =>
      let clauseCount := clauses.length
      let normalized : ℚ :=
        if 0 < clauseCount then min 100 (acc2.1 / clauseCount * 20) else 0
      some { overall_score := round2 normalized,
             overall_level := determineRiskLevel normalized,
             total_risks_found := (breakdownKeys.map (fun k => (acc2.2 k).length)).sum,
             risk_breakdown := acc2.2 }

/-! ## Constructor arity — `ClauseAnalyzer.__init__`
(`src/modules/clause_analyzer.py`, lines 13–15) calls
`NLPProcessor(nlp)`, but `NLPProcessor.__init__`
(`src/modules/nlp_processor.py`, line 20) is declared as
`def __init__(self):`.  Python checks positional-argument arity before
executing the body, so the call raises `TypeError` for every argument
value and the body (external model loading) is never reached. -/

inductive PyError where
  | typeError
  deriving DecidableEq, Repr

/-- The `NLPProcessor` object; its fields (spaCy model, stop words) are
produced by external collaborators and play no role here. -/
structure NLPProcessorObj where

/-- Number of parameters of `NLPProcessor.__init__` besides `self`. -/
def nlpProcessorInitParamCount : Nat := 0

/-- Calling `NLPProcessor(...)` with `argCount` positional arguments:
`TypeError` unless the count matches the declared parameters; otherwise
the (externally effectful) body runs and yields the object. -/
def callNLPProcessorInit (argCount : Nat) : Except PyError NLPProcessorObj :=
  if argCount = nlpProcessorInitParamCount then .ok ⟨⟩ else .error .typeError

/-- The `ClauseAnalyzer` object after a successful `__init__`. -/
structure ClauseAnalyzerObj where
  nlp_processor : NLPProcessorObj

/-- `ClauseAnalyzer(nlp)` / `ClauseAnalyzer()`: the first statement of
`__init__` is `self.nlp_processor = NLPProcessor(nlp)` — one positional
argument, whatever value `nlp` holds (`None` by default). -/
def callClauseAnalyzerInit {α : Type} (nlp : Option α) : Except PyError ClauseAnalyzerObj := do
  let _ := nlp
  let p ← callNLPProcessorInit 1
  pure { nlp_processor := p }

/-! ## Proof-side characterizations (used only in theorem statements and
proofs, not part of the embedding itself) -/

/-- Well-formedness of a finding as produced by `_detect_clause_risks`:
its severity is one of the three levels and its category is a key of
`risk_breakdown` (every entry of the catalog satisfies this). -/
def wfRisk (r : RiskFinding) : Prop :=
  r.severity ∈ (["LOW", "MEDIUM", "HIGH"] : List String) ∧ r.category ∈ breakdownKeys

instance (r : RiskFinding) : Decidable (wfRisk r) := by
  unfold wfRisk
  infer_instance

/-- The raw score of a single finding (defined with the defaulting
severity lookup; it agrees with the strict lookup on well-formed
findings). -/
def riskScorePure (r : RiskFinding) : ℚ :=
  severityScoreDefault r.severity * catWeight r.category

/-- Total raw score of the NLP pass. -/
def clausesTotal (cs : List AnalyzedClause) : ℚ :=
  (cs.map (fun c => (c.risks.map riskScorePure).sum)).sum

/-- Total raw score of the LLM pass. -/
def llmTotal (l : List LLMRisk) : ℚ :=
  (l.map (fun r => severityScoreDefault r.severity * catWeight (categorizeLLMRisk r.rtype))).sum

/-- Total raw score of the optional LLM pass. -/
def llmTotalOpt : Option (List LLMRisk) → ℚ
  | none => 0
  | some l => llmTotal l

/-! ## Concrete inputs named by the claims -/

/-- A document with a line-initiated numbered token (`"1."`), a
capitalized heading, and further body lines before the next numbered
token; paragraphs are kept under 51 characters so the paragraph fallback
stays silent. -/
def c1Doc : List Char :=
  "1. Payment Terms\nThe party shall pay.\n\n2. Term\nIt may end.".data

/-- The clause text of the unlimited-liability scenario (apostrophe
spelled via its code point). -/
def c2Text : List Char :=
  "Vendor".data ++ Char.ofNat 39 ::
    "s liability shall be unlimited for any damages arising from this agreement.".data

/-- The clause text of the unilateral-termination scenario. -/
def c3Text : List Char :=
  "The Company may terminate this agreement at any time at its sole discretion.".data

/-- A document whose single paragraph is exactly 50 characters long and
matches neither structured pattern. -/
def c7Doc : List Char :=
  "the contract terms are simple and fair for all men".data

/-- An analyzed clause with one HIGH finding and an original text of 13
characters (well under 200). -/
def c9Clause : AnalyzedClause :=
  { clause_id := "C1", clause_type := "Liability",
    risks := [{ risk_type := "Unlimited Liability", severity := "HIGH",
                category := "liability", description := "d" }],
    ambiguities := [], original_text := "Short clause." }

/-- The (type, keyword-count) pairs the classifier works over, in the
declaration order of `clauseKeywords`. -/
def c5Pairs (text : List Char) : List (String × Nat) :=
  clauseKeywords.map (fun p => (p.1, countKeywords (pyLower text) p.2))

/-! ## General helper lemmas -/

theorem mem_of_mem_dropWhile {p : Char → Bool} :
    ∀ {l : List Char} {a : Char}, a ∈ l.dropWhile p → a ∈ l := by
  intro l a h
  induction l with
  | nil => simp at h
  | cons c cs ih =>
    rw [List.dropWhile_cons] at h
    split at h
    · exact List.mem_cons_of_mem c (ih h)
    · exact h

theorem pyStrip_mem {s : List Char} {a : Char} (h : a ∈ pyStrip s) : a ∈ s := by
  unfold pyStrip at h
  rw [List.mem_reverse] at h
  have h2 := mem_of_mem_dropWhile h
  rw [List.mem_reverse] at h2
  exact mem_of_mem_dropWhile h2

theorem ne_newline_of_isUpperCh {c : Char} (h : isUpperCh c = true) : c ≠ '\n' := by
  intro hc
  subst hc
  exact absurd h (by decide)

/-! ## Single-line invariant of the numbered strategy -/

theorem bodyScanNum_ne_newline :
    ∀ (s : List Char) (p : List Char × List Char), bodyScanNum s = some p →
      ∀ ch ∈ p.1, ch ≠ '\n' := by
  intro s
  induction s with
  | nil => intro p h; simp [bodyScanNum] at h
  | cons c cs ih =>
    intro p h ch hch
    rw [bodyScanNum] at h
    split at h
    · exact Option.noConfusion h
    · next hcn =>
      split at h
      · injection h with h2
        subst h2
        simp only [List.mem_singleton] at hch
        subst hch
        exact hcn
      · rw [Option.map_eq_some'] at h
        obtain ⟨q, hq, hfq⟩ := h
        subst hfq
        rcases List.mem_cons.mp hch with h1 | h2
        · subst h1; exact hcn
        · exact ih q hq ch h2

theorem numCore_ne_newline :
    ∀ (s g1 g2 r : List Char), numCore s = some (g1, g2, r) → ∀ ch ∈ g2, ch ≠ '\n' := by
  intro s g1 g2 r h ch hch
  unfold numCore at h
  cases hp : parseNumGroup1 s with
  | none => rw [hp] at h; exact Option.noConfusion h
  | some q =>
    obtain ⟨qa, qb⟩ := q
    rw [hp] at h
    dsimp only at h
    split at h
    · exact Option.noConfusion h
    · split at h
      · next c r3 _ =>
        split at h
        · next hup =>
          rw [Option.map_eq_some'] at h
          obtain ⟨q2, hq2, hfq⟩ := h
          injection hfq with e1 e2
          injection e2 with e2a e2b
          subst e2a
          rcases List.mem_cons.mp hch with h1 | h2
          · subst h1; exact ne_newline_of_isUpperCh hup
          · exact bodyScanNum_ne_newline r3 q2 hq2 ch h2
        · exact Option.noConfusion h
      · exact Option.noConfusion h

theorem matchNumberedAt_ne_newline :
    ∀ (als : Bool) (s g1 g2 r : List Char), matchNumberedAt als s = some (g1, g2, r) →
      ∀ ch ∈ g2, ch ≠ '\n' := by
  intro als s g1 g2 r h
  unfold matchNumberedAt at h
  split at h
  · next m heq =>
    injection h with h2
    subst h2
    split at heq
    · exact numCore_ne_newline _ _ _ _ heq
    · exact Option.noConfusion heq
  · next heq =>
    split at h
    · exact numCore_ne_newline _ _ _ _ h
    · exact Option.noConfusion h

theorem scanNumbered_succ (fuel : Nat) (als : Bool) (s : List Char) :
    scanNumbered (fuel + 1) als s =
      match matchNumberedAt als s with
      | some m => (m.1, m.2.1) :: scanNumbered fuel false m.2.2
      | none =>
        match s with
        | [] => []
        | c :: cs => scanNumbered fuel (c = '\n') cs := rfl

theorem scanNumbered_ne_newline :
    ∀ (fuel : Nat) (als : Bool) (s : List Char) (m : List Char × List Char),
      m ∈ scanNumbered fuel als s → ∀ ch ∈ m.2, ch ≠ '\n' := by
  intro fuel
  induction fuel with
  | zero =>
    intro als s m hm
    exact absurd hm (List.not_mem_nil m)
  | succ n ih =>
    intro als s m hm
    rw [scanNumbered_succ] at hm
    split at hm
    · next mm heq =>
      rcases List.mem_cons.mp hm with h1 | h2
      · subst h1
        have heq2 : matchNumberedAt als s = some (mm.1, mm.2.1, mm.2.2) := by
          rw [heq]
        exact matchNumberedAt_ne_newline als s mm.1 mm.2.1 mm.2.2 heq2
      · exact ih _ _ _ h2
    · split at hm
      · exact absurd hm (List.not_mem_nil m)
      · exact ih _ _ _ hm

/-! ## Paragraph-fallback lemmas -/

theorem paraClauses_mem :
    ∀ (ps : List (List Char)) (i : Nat) (c : Clause), c ∈ paraClauses i ps →
      c.ctype = "paragraph" ∧ 50 < c.text.length := by
  intro ps
  induction ps with
  | nil => intro i c hc; exact absurd hc (List.not_mem_nil c)
  | cons p ps ih =>
    intro i c hc
    rw [paraClauses] at hc
    rcases List.mem_append.mp hc with h1 | h2
    · split at h1
      · next hcond =>
        rw [List.mem_singleton] at h1
        subst h1
        refine ⟨rfl, ?_⟩
        have h2 := (Bool.and_eq_true _ _).mp hcond
        exact of_decide_eq_true h2.2
      · exact absurd h1 (List.not_mem_nil c)
    · exact ih (i + 1) c h2

theorem paraClauses_get_mem :
    ∀ (ps : List (List Char)) (i j : Nat) (hj : j < ps.length),
      50 < (pyStrip (ps.get ⟨j, hj⟩)).length →
      ({ clause_id := 'P' :: Nat.toDigits 10 (i + j + 1),
         text := pyStrip (ps.get ⟨j, hj⟩), ctype := "paragraph" } : Clause) ∈
        paraClauses i ps := by
  intro ps
  induction ps with
  | nil => intro i j hj; exact absurd hj (Nat.not_lt_zero j)
  | cons p ps ih =>
    intro i j hj hlen
    rw [paraClauses]
    cases j with
    | zero =>
      have hlen2 : 50 < (pyStrip p).length := hlen
      apply List.mem_append_left
      have hne : (pyStrip p).isEmpty = false := by
        cases hemp : pyStrip p with
        | nil => rw [hemp] at hlen2; simp at hlen2
        | cons a as => rfl
      have hcond : (!(pyStrip p).isEmpty && decide (50 < (pyStrip p).length)) = true := by
        rw [hne]
        simp only [Bool.not_false, Bool.true_and]
        exact decide_eq_true hlen2
      rw [if_pos hcond]
      exact List.mem_singleton.mpr rfl
    | succ k =>
      apply List.mem_append_right
      have hk : k < ps.length := Nat.lt_of_succ_lt_succ hj
      have h2 := ih (i + 1) k hk hlen
      have harith : i + 1 + k + 1 = i + (k + 1) + 1 := by omega
      rw [harith] at h2
      exact h2

/-! ## Claim C1 -/

/-- Claim C1 (corrected), counterexample: `c1Doc` has the line-initiated
numbered token `"1."` followed by the capitalized heading
`"Payment Terms"` and a further body line, yet `extract_clauses` returns
no clause at all for it — the numbered pattern's body class `[^\n]+?`
cannot cross the end of the heading line, and the following line starts
neither with a numbered token nor with three capitals, so the whole
match attempt fails (and both paragraphs are too short for the
fallback). -/
theorem c1_counterexample : extractClauses c1Doc = [] := by decide

/-- Claim C1 (corrected, amended): a clause produced by the numbered
strategy of the Clause Segmenter never extends past its heading line —
its text contains no newline — so a multi-line body is never captured;
text until the next numbered token / all-caps heading is captured only
insofar as it lies on the single heading line. -/
theorem c1_amended (text : List Char) (c : Clause) (hc : c ∈ extractClauses text)
    (hty : c.ctype = "numbered") : ∀ ch ∈ c.text, ch ≠ '\n' := by
  intro ch hch
  simp only [extractClauses] at hc
  split at hc
  · have hpar := (paraClauses_mem _ _ _ hc).1
    rw [hty] at hpar
    exact absurd hpar (by decide)
  · rcases List.mem_append.mp hc with h1 | h2
    · obtain ⟨m, hm, hfm⟩ := List.mem_map.mp h1
      subst hfm
      exact scanNumbered_ne_newline _ _ _ m hm ch (pyStrip_mem hch)
    · obtain ⟨m, hm, hfm⟩ := List.mem_map.mp h2
      subst hfm
      exact absurd (show ("lettered" : String) = "numbered" from hty) (by decide)

/-- Witness for `c1_amended`: on `"1. Payment Terms\n2. Termination"`
the numbered strategy does produce a clause, and its text is the heading
line alone. -/
theorem c1_amended_witness :
    ({ clause_id := ['1', '.'], text := "Payment Terms".data, ctype := "numbered" } : Clause) ∈
      extractClauses "1. Payment Terms\n2. Termination".data ∧ ('P' : Char) ≠ '\n' :=
  ⟨by decide,
   c1_amended "1. Payment Terms\n2. Termination".data
     { clause_id := ['1', '.'], text := "Payment Terms".data, ctype := "numbered" }
     (by decide) rfl 'P' (by decide)⟩

/-! ## Claim C7 -/

/-- Claim C7 (corrected), counterexample: a document whose single
paragraph is exactly 50 characters long (and triggers neither structured
strategy) yields the empty clause list — the fallback keeps only
paragraphs of length strictly greater than 50
(`len(para.strip()) > 50`). -/
theorem c7_counterexample :
    c7Doc.length = 50 ∧ splitNN c7Doc = [c7Doc] ∧ pyStrip c7Doc = c7Doc ∧
      extractClauses c7Doc = [] := by decide

/-- Claim C7 (corrected, amended): when neither structured strategy
yields a match, the segmenter falls back to blank-line paragraph
splitting and keeps exactly the paragraphs whose stripped text is
strictly longer than 50 characters (a 50-character paragraph is
discarded, possibly leaving an empty list); a kept paragraph gets id
`P(k+1)` where `k` is its position among all split paragraphs, kept or
not. -/
theorem c7_amended (text : List Char)
    (hn : scanNumbered (text.length + 1) true text = [])
    (hl : scanLettered (text.length + 1) true text = []) :
    (∀ c ∈ extractClauses text, c.ctype = "paragraph" ∧ 50 < c.text.length) ∧
    (∀ j (hj : j < (splitNN text).length),
       50 < (pyStrip ((splitNN text).get ⟨j, hj⟩)).length →
       ({ clause_id := 'P' :: Nat.toDigits 10 (j + 1),
          text := pyStrip ((splitNN text).get ⟨j, hj⟩), ctype := "paragraph" } : Clause) ∈
         extractClauses text) := by
  have hext : extractClauses text = paraClauses 0 (splitNN text) := by
    simp [extractClauses, hn, hl]
  constructor
  · intro c hc
    rw [hext] at hc
    exact paraClauses_mem _ _ _ hc
  · intro j hj hlen
    rw [hext]
    have h2 := paraClauses_get_mem (splitNN text) 0 j hj hlen
    rw [show 0 + j + 1 = j + 1 from by omega] at h2
    exact h2

/-- Witness for `c7_amended`: a 55-character single-paragraph document
does produce the paragraph clause `P1`. -/
theorem c7_amended_witness :
    ({ clause_id := ['P', '1'],
       text := "the contract terms are simple and fair for all good men".data,
       ctype := "paragraph" } : Clause) ∈
      extractClauses "the contract terms are simple and fair for all good men".data := by
  have h := (c7_amended "the contract terms are simple and fair for all good men".data
    (by decide) (by decide)).2 0 (by decide) (by decide)
  exact h

/-! ## Claim C4 -/

/-- Claim C4 (confirmed): every construction of `ClauseAnalyzer` — with
any argument value, including the default `nlp=None` — raises
`TypeError`, because `__init__` calls `NLPProcessor(nlp)` while
`NLPProcessor.__init__` accepts no argument besides `self`; consequently
no `ClauseAnalyzer` method is reachable through normal construction. -/
theorem c4_constructor_type_error {α : Type} (nlp : Option α) :
    callClauseAnalyzerInit nlp = Except.error PyError.typeError := rfl

/-! ## Claim C9 -/

/-- Claim C9 (corrected), counterexample: a clause whose original text
has 13 characters (≤ 200) still gets the ellipsis appended — the source
computes `clause["original_text"][:200] + "..."` unconditionally. -/
theorem c9_counterexample :
    c9Clause.original_text.length ≤ 200 ∧
      (identifyUnfavorableClauses [c9Clause]).map (fun e => e.text) ≠
        [c9Clause.original_text] ∧
      (identifyUnfavorableClauses [c9Clause]).map (fun e => e.text) =
        [c9Clause.original_text ++ "..."] := by decide

/-- Claim C9 (corrected, amended): every entry produced by the
Unfavorable-Clause Selector carries the first 200 characters of the
clause's original text with an ellipsis appended unconditionally — also
when the text was not truncated. -/
theorem c9_amended (cs : List AnalyzedClause) :
    ∀ e ∈ identifyUnfavorableClauses cs,
      ∃ c ∈ cs, e.text = String.mk (c.original_text.data.take 200) ++ "..." := by
  intro e he
  rw [identifyUnfavorableClauses, List.mem_filterMap] at he
  obtain ⟨c, hc, hsel⟩ := he
  refine ⟨c, hc, ?_⟩
  simp only [selectUnfavorable] at hsel
  split at hsel
  · injection hsel with h2
    subst h2
    rfl
  · split at hsel
    · injection hsel with h2
      subst h2
      rfl
    · exact Option.noConfusion hsel

/-- Witness for `c9_amended` at the concrete clause `c9Clause`. -/
theorem c9_amended_witness :
    ∃ c ∈ [c9Clause],
      ({ clause_id := "C1", clause_type := "Liability",
         reasons := ["Unlimited Liability"], text := "Short clause....",
         severity := "HIGH" } : UnfavorableEntry).text =
        String.mk (c.original_text.data.take 200) ++ "..." :=
  c9_amended [c9Clause]
    { clause_id := "C1", clause_type := "Liability",
      reasons := ["Unlimited Liability"], text := "Short clause....",
      severity := "HIGH" }
    (by decide)

/-! ## Claim C2 -/

/-- Claim C2 (corrected), counterexample: on the clause text
`"Vendor's liability shall be unlimited for any damages arising from
this agreement."` the Risk Detector does not return one
`"Unlimited Liability"` finding — it returns none at all: the pattern
`\b(unlimited|...)\s+(?:liability|damages|obligation)` requires the
noun right after `unlimited`, but the text reads
`"liability shall be unlimited for any damages"`. -/
theorem c2_counterexample :
    ¬ ∃ f : RiskFinding, detectClauseRisks c2Text "Liability" = [f] ∧
        f.risk_type = "Unlimited Liability" ∧ f.severity = "HIGH" ∧
        f.category = "liability" := by
  have h : detectClauseRisks c2Text "Liability" = [] := by decide
  rintro ⟨f, hf, _⟩
  rw [h] at hf
  exact List.noConfusion hf

/-- Claim C2 (corrected, amended): for that clause text the Risk
Detector returns no finding whatever clause type was pre-assigned (no
catalog pattern matches, and the type-conditional phrases
`"without cause"`, `"at will"`, `"advance"`, `"upfront"` do not occur in
the text). -/
theorem c2_amended : ∀ ctype : String, detectClauseRisks c2Text ctype = [] := by
  intro ty
  have hpat : patternFindings (pyLower c2Text) = [] := by decide
  have h1 : (isSubstrOf "without cause".data (pyLower c2Text) ||
      isSubstrOf "at will".data (pyLower c2Text)) = false := by decide
  have h2 : (isSubstrOf "advance".data (pyLower c2Text) ||
      isSubstrOf "upfront".data (pyLower c2Text)) = false := by decide
  simp [detectClauseRisks, hpat, h1, h2]

/-! ## Claim C3 -/

/-- Claim C3 (corrected), counterexample: on
`"The Company may terminate this agreement at any time at its sole
discretion."` with type `"Termination"`, no `"Unilateral Termination"`
finding (nor any other) is returned: the pattern
`\b(?:may|can|shall)\s+terminate\s+(?:at|with)\s+(?:any\s+time|will|discretion)`
requires `at`/`with` directly after `terminate`, but the text reads
`"terminate this agreement at any time"`. -/
theorem c3_counterexample :
    ¬ ∃ f ∈ detectClauseRisks c3Text "Termination",
        f.risk_type = "Unilateral Termination" ∧ f.severity = "HIGH" ∧
        f.category = "unilateral_termination" := by
  have h : detectClauseRisks c3Text "Termination" = [] := by decide
  rintro ⟨f, hf, _⟩
  rw [h] at hf
  exact absurd hf (List.not_mem_nil f)

/-- Claim C3 (corrected, amended): for that clause text with type
`"Termination"` the Risk Detector returns the empty finding list (the
type-conditional rule also stays silent since neither `"without cause"`
nor `"at will"` occurs). -/
theorem c3_amended : detectClauseRisks c3Text "Termination" = [] := by decide

/-! ## Claim C8 -/

/-- Claim C8 (confirmed): a clause with at least one HIGH-severity
finding and more than 2 ambiguity findings is reported with severity
`"HIGH"` and reasons equal to the risk types of its HIGH findings only;
`"Multiple Ambiguous Terms"` never appears for such a clause (no
detector risk type carries that name, stated here as the hypothesis
`hnm`). -/
theorem c8_high_precedence (cs : List AnalyzedClause) (c : AnalyzedClause) (hc : c ∈ cs)
    (hhigh : ∃ r ∈ c.risks, r.severity = "HIGH") (_hamb : 2 < c.ambiguities.length)
    (hnm : ∀ r ∈ c.risks, r.risk_type ≠ "Multiple Ambiguous Terms") :
    ∃ e ∈ identifyUnfavorableClauses cs, e.severity = "HIGH" ∧
      e.reasons = (c.risks.filter (fun r => r.severity = "HIGH")).map (fun r => r.risk_type) ∧
      "Multiple Ambiguous Terms" ∉ e.reasons := by
  have hne : (c.risks.filter (fun r => decide (r.severity = "HIGH"))).isEmpty = false := by
    obtain ⟨r, hr, hs⟩ := hhigh
    have hmem : r ∈ c.risks.filter (fun r => decide (r.severity = "HIGH")) :=
      List.mem_filter.mpr ⟨hr, decide_eq_true hs⟩
    cases hl : c.risks.filter (fun r => decide (r.severity = "HIGH")) with
    | nil => rw [hl] at hmem; exact absurd hmem (List.not_mem_nil r)
    | cons a as => rfl
  refine ⟨{ clause_id := c.clause_id, clause_type := c.clause_type,
            reasons := (c.risks.filter (fun r => r.severity = "HIGH")).map
              (fun r => r.risk_type),
            text := String.mk (c.original_text.data.take 200) ++ "...",
            severity := "HIGH" }, ?_, rfl, rfl, ?_⟩
  · rw [identifyUnfavorableClauses, List.mem_filterMap]
    refine ⟨c, hc, ?_⟩
    simp only [selectUnfavorable, hne, Bool.not_false, if_true]
  · intro hmem
    obtain ⟨r, hr, hrt⟩ := List.mem_map.mp hmem
    exact hnm r (List.mem_of_mem_filter hr) hrt

/-- Witness for `c8_high_precedence`: a clause with one HIGH finding and
three ambiguity findings. -/
theorem c8_high_precedence_witness :
    ∃ e ∈ identifyUnfavorableClauses
        [{ clause_id := "C1", clause_type := "Liability",
           risks := [{ risk_type := "Broad Indemnity", severity := "HIGH",
                       category := "indemnity", description := "d" }],
           ambiguities := [{ phrase := "may", context := "x", position := 0,
                             reason := "Vague or subjective term" },
                           { phrase := "could", context := "x", position := 4,
                             reason := "Vague or subjective term" },
                           { phrase := "reasonable", context := "x", position := 10,
                             reason := "Vague or subjective term" }],
           original_text := "t" }],
      e.severity = "HIGH" ∧ e.reasons = ["Broad Indemnity"] ∧
      "Multiple Ambiguous Terms" ∉ e.reasons := by
  have h := c8_high_precedence
    [{ clause_id := "C1", clause_type := "Liability",
       risks := [{ risk_type := "Broad Indemnity", severity := "HIGH",
                   category := "indemnity", description := "d" }],
       ambiguities := [{ phrase := "may", context := "x", position := 0,
                         reason := "Vague or subjective term" },
                       { phrase := "could", context := "x", position := 4,
                         reason := "Vague or subjective term" },
                       { phrase := "reasonable", context := "x", position := 10,
                         reason := "Vague or subjective term" }],
       original_text := "t" }]
    { clause_id := "C1", clause_type := "Liability",
      risks := [{ risk_type := "Broad Indemnity", severity := "HIGH",
                  category := "indemnity", description := "d" }],
      ambiguities := [{ phrase := "may", context := "x", position := 0,
                        reason := "Vague or subjective term" },
                      { phrase := "could", context := "x", position := 4,
                        reason := "Vague or subjective term" },
                      { phrase := "reasonable", context := "x", position := 10,
                        reason := "Vague or subjective term" }],
      original_text := "t" }
    (List.mem_singleton.mpr rfl) (by decide) (by decide) (by decide)
  exact h

/-! ## Claim C5 -/

theorem pyMax_stays :
    ∀ (l : List (String × Nat)) (b : String × Nat), (∀ x ∈ l, ¬ b.2 < x.2) →
      pyMax b l = b := by
  intro l
  induction l with
  | nil => intro b h; rfl
  | cons x xs ih =>
    intro b h
    unfold pyMax
    rw [List.foldl_cons, if_neg (h x (List.mem_cons_self x xs))]
    exact ih b (fun y hy => h y (List.mem_cons_of_mem x hy))

theorem pyMax_first :
    ∀ (l1 : List (String × Nat)) (t : String × Nat) (l2 : List (String × Nat))
      (b : String × Nat), b.2 < t.2 → (∀ x ∈ l1, x.2 < t.2) → (∀ x ∈ l2, ¬ t.2 < x.2) →
      pyMax b (l1 ++ t :: l2) = t := by
  intro l1
  induction l1 with
  | nil =>
    intro t l2 b hb h1 h2
    unfold pyMax
    rw [List.nil_append, List.foldl_cons, if_pos hb]
    exact pyMax_stays l2 t h2
  | cons x l1x ih =>
    intro t l2 b hb h1 h2
    unfold pyMax
    rw [List.cons_append, List.foldl_cons]
    have hseed : (if x.2 > b.2 then x else b).2 < t.2 := by
      split
      · exact h1 x (List.mem_cons_self x l1x)
      · exact hb
    exact ih t l2 _ hseed (fun y hy => h1 y (List.mem_cons_of_mem x hy)) h2

theorem pySelect_zero :
    ∀ (pairs : List (String × Nat)), (∀ p ∈ pairs, p.2 = 0) →
      pySelect pairs = "General Provisions" := by
  intro pairs h
  unfold pySelect
  have hf : pairs.filter (fun p => decide (0 < p.2)) = [] := by
    rw [List.filter_eq_nil_iff]
    intro a ha
    rw [h a ha]
    decide
  rw [hf]

theorem pySelect_first_max (pairs : List (String × Nat)) (j : Nat) (hj : j < pairs.length)
    (hpos : 0 < (pairs.get ⟨j, hj⟩).2)
    (hmax : ∀ x ∈ pairs, x.2 ≤ (pairs.get ⟨j, hj⟩).2)
    (hfirst : ∀ x ∈ pairs.take j, x.2 < (pairs.get ⟨j, hj⟩).2) :
    pySelect pairs = (pairs.get ⟨j, hj⟩).1 := by
  have hsplit : pairs = pairs.take j ++ pairs.get ⟨j, hj⟩ :: pairs.drop (j + 1) := by
    conv_lhs => rw [← List.take_append_drop j pairs]
    congr 1
    exact List.drop_eq_get_cons hj
  have hdropf : ∀ x ∈ (pairs.drop (j + 1)).filter (fun p => decide (0 < p.2)),
      ¬ (pairs.get ⟨j, hj⟩).2 < x.2 := by
    intro x hx
    exact not_lt.mpr (hmax x (List.mem_of_mem_drop (List.mem_of_mem_filter hx)))
  have hf : pairs.filter (fun p => decide (0 < p.2)) =
      (pairs.take j).filter (fun p => decide (0 < p.2)) ++
        pairs.get ⟨j, hj⟩ :: (pairs.drop (j + 1)).filter (fun p => decide (0 < p.2)) := by
    conv_lhs => rw [hsplit]
    rw [List.filter_append, List.filter_cons, if_pos (decide_eq_true hpos)]
  unfold pySelect
  rw [hf]
  cases hcase : (pairs.take j).filter (fun p => decide (0 < p.2)) with
  | nil =>
    rw [List.nil_append]
    exact congrArg Prod.fst (pyMax_stays _ _ hdropf)
  | cons a tl =>
    rw [List.cons_append]
    refine congrArg Prod.fst (pyMax_first tl _ _ a ?_ ?_ hdropf)
    · exact hfirst a (List.mem_of_mem_filter (hcase ▸ List.mem_cons_self a tl))
    · intro y hy
      exact hfirst y (List.mem_of_mem_filter (hcase ▸ List.mem_cons_of_mem a hy))

/-- Claim C5 (confirmed): the Clause Classifier works over the
keyword-count pairs taken in the fixed declaration order (first
conjunct); when every count is zero it returns `"General Provisions"`
(second conjunct); and whenever position `j` holds a non-zero count that
is maximal and strictly greater than every earlier count, the classifier
returns that type — i.e. the highest non-zero count wins and ties go to
the first-declared type (third conjunct). -/
theorem c5_classifier (text : List Char) :
    (c5Pairs text).map Prod.fst =
        ["Payment Terms", "Termination", "Indemnity", "Confidentiality",
         "Intellectual Property", "Liability", "Dispute Resolution", "Force Majeure",
         "Warranties", "Non-compete", "Auto-Renewal", "Lock-in Period"] ∧
    ((∀ p ∈ c5Pairs text, p.2 = 0) → classifyClauseType text = "General Provisions") ∧
    (∀ j (hj : j < (c5Pairs text).length), 0 < ((c5Pairs text).get ⟨j, hj⟩).2 →
      (∀ x ∈ c5Pairs text, x.2 ≤ ((c5Pairs text).get ⟨j, hj⟩).2) →
      (∀ x ∈ (c5Pairs text).take j, x.2 < ((c5Pairs text).get ⟨j, hj⟩).2) →
      classifyClauseType text = ((c5Pairs text).get ⟨j, hj⟩).1) := by
  refine ⟨rfl, ?_, ?_⟩
  · intro h
    exact pySelect_zero (c5Pairs text) h
  · intro j hj hpos hmax hfirst
    exact pySelect_first_max (c5Pairs text) j hj hpos hmax hfirst

/-- Witness for `c5_classifier`: `"payment fee"` scores 2 for Payment
Terms (declared first) and 0 elsewhere. -/
theorem c5_classifier_witness : classifyClauseType "payment fee".data = "Payment Terms" := by
  have h := (c5_classifier "payment fee".data).2.2 0 (by decide) (by decide)
    (by decide) (by decide)
  exact h

/-! ## Risk-assessor lemmas -/

theorem severityScoreStrict_wf {s : String}
    (h : s ∈ (["LOW", "MEDIUM", "HIGH"] : List String)) :
    severityScoreStrict s = some (severityScoreDefault s) := by
  simp only [List.mem_cons, List.not_mem_nil, or_false] at h
  rcases h with h | h | h <;> subst h <;> decide

theorem catWeight_pos (c : String) : 0 < catWeight c := by
  unfold catWeight
  cases hf : riskWeights.find? (fun p => p.1 = c) with
  | none => simp
  | some p =>
    have hp : p ∈ riskWeights := List.mem_of_find?_eq_some hf
    have hall : ∀ q ∈ riskWeights, 0 < q.2 := by
      intro q hq
      fin_cases hq <;> norm_num
    simpa using hall p hp

theorem severityScoreDefault_unknown {s : String}
    (h : s ∉ (["LOW", "MEDIUM", "HIGH"] : List String)) : severityScoreDefault s = 2 := by
  unfold severityScoreDefault
  have h1 : riskLevelScores.find? (fun p => p.1 = s) = none := by
    rw [List.find?_eq_none]
    intro x hx
    simp only [decide_eq_true_eq]
    intro hxs
    apply h
    rw [← hxs]
    have hnames : ∀ q ∈ riskLevelScores, q.1 ∈ (["LOW", "MEDIUM", "HIGH"] : List String) := by
      decide
    exact hnames x hx
  rw [h1]
  rfl

theorem bdAppend_some {b : Breakdown} {cat : String} {e : BreakdownEntry}
    (h : cat ∈ breakdownKeys) :
    bdAppend b cat e = some (fun k => if k = cat then b k ++ [e] else b k) := by
  unfold bdAppend
  rw [if_pos h]

theorem bdAppend_mem_self {b : Breakdown} {cat : String} {e : BreakdownEntry}
    {b2 : Breakdown} (h : bdAppend b cat e = some b2) : e ∈ b2 cat := by
  unfold bdAppend at h
  split at h
  · injection h with h2
    subst h2
    simp
  · exact Option.noConfusion h

theorem bdAppend_mem_mono {b : Breakdown} {cat k : String} {e e0 : BreakdownEntry}
    {b2 : Breakdown} (h : bdAppend b cat e = some b2) (hm : e0 ∈ b k) : e0 ∈ b2 k := by
  unfold bdAppend at h
  split at h
  · injection h with h2
    subst h2
    dsimp only
    split
    · exact List.mem_append_left _ hm
    · exact hm
  · exact Option.noConfusion h

theorem categorizeLLMRisk_mem (s : String) : categorizeLLMRisk s ∈ breakdownKeys := by
  unfold categorizeLLMRisk
  dsimp only
  repeat' split
  all_goals decide

theorem foldRisks_wf :
    ∀ (rs : List RiskFinding) (cid : String) (t : ℚ) (b : Breakdown),
      (∀ r ∈ rs, wfRisk r) →
      ∃ b2, foldRisks cid (t, b) rs = some (t + (rs.map riskScorePure).sum, b2) := by
  intro rs
  induction rs with
  | nil =>
    intro cid t b h
    exact ⟨b, by simp [foldRisks]⟩
  | cons r rs ih =>
    intro cid t b h
    have hwf := h r (List.mem_cons_self r rs)
    rw [foldRisks, severityScoreStrict_wf hwf.1]
    dsimp only
    rw [bdAppend_some hwf.2]
    dsimp only
    obtain ⟨b2, hb2⟩ := ih cid
      (t + severityScoreDefault r.severity * catWeight r.category)
      (fun k => if k = r.category then b k ++
        [{ clause_id := cid, risk_type := r.risk_type, severity := r.severity,
           score := severityScoreDefault r.severity * catWeight r.category,
           description := r.description }] else b k)
      (fun x hx => h x (List.mem_cons_of_mem r hx))
    refine ⟨b2, ?_⟩
    rw [hb2]
    have harith :
        t + severityScoreDefault r.severity * catWeight r.category +
          (rs.map riskScorePure).sum =
        t + ((r :: rs).map riskScorePure).sum := by
      simp [riskScorePure]
      ring
    rw [harith]

theorem foldClauses_wf :
    ∀ (cs : List AnalyzedClause) (t : ℚ) (b : Breakdown),
      (∀ c ∈ cs, ∀ r ∈ c.risks, wfRisk r) →
      ∃ b2, foldClauses (t, b) cs = some (t + clausesTotal cs, b2) := by
  intro cs
  induction cs with
  | nil =>
    intro t b h
    exact ⟨b, by simp [foldClauses, clausesTotal]⟩
  | cons c cs ih =>
    intro t b h
    obtain ⟨b1, hb1⟩ := foldRisks_wf c.risks c.clause_id t b
      (h c (List.mem_cons_self c cs))
    rw [foldClauses, hb1]
    dsimp only
    obtain ⟨b2, hb2⟩ := ih (t + (c.risks.map riskScorePure).sum) b1
      (fun x hx => h x (List.mem_cons_of_mem c hx))
    refine ⟨b2, ?_⟩
    rw [hb2]
    have harith : t + (c.risks.map riskScorePure).sum + clausesTotal cs =
        t + clausesTotal (c :: cs) := by
      simp [clausesTotal]
      ring
    rw [harith]

theorem foldLLM_total :
    ∀ (l : List LLMRisk) (t : ℚ) (b : Breakdown),
      ∃ b2, foldLLM (t, b) l = some (t + llmTotal l, b2) := by
  intro l
  induction l with
  | nil =>
    intro t b
    exact ⟨b, by simp [foldLLM, llmTotal]⟩
  | cons r rs ih =>
    intro t b
    rw [foldLLM]
    dsimp only
    rw [bdAppend_some (categorizeLLMRisk_mem r.rtype)]
    dsimp only
    obtain ⟨b2, hb2⟩ := ih
      (t + severityScoreDefault r.severity * catWeight (categorizeLLMRisk r.rtype))
      (fun k => if k = categorizeLLMRisk r.rtype then b k ++
        [{ clause_id := "LLM Analysis", risk_type := r.rtype, severity := r.severity,
           score := severityScoreDefault r.severity * catWeight (categorizeLLMRisk r.rtype),
           description := r.description }] else b k)
    refine ⟨b2, ?_⟩
    rw [hb2]
    have harith :
        t + severityScoreDefault r.severity * catWeight (categorizeLLMRisk r.rtype) +
          llmTotal rs = t + llmTotal (r :: rs) := by
      simp [llmTotal]
      ring
    rw [harith]

theorem foldLLM_mem_mono :
    ∀ (l : List LLMRisk) (t : ℚ) (b : Breakdown) (t2 : ℚ) (b2 : Breakdown)
      (k : String) (e : BreakdownEntry),
      e ∈ b k → foldLLM (t, b) l = some (t2, b2) → e ∈ b2 k := by
  intro l
  induction l with
  | nil =>
    intro t b t2 b2 k e he h
    rw [foldLLM] at h
    injection h with h2
    rw [Prod.mk.injEq] at h2
    rw [← h2.2]
    exact he
  | cons r rs ih =>
    intro t b t2 b2 k e he h
    rw [foldLLM] at h
    dsimp only at h
    split at h
    · exact Option.noConfusion h
    · next bnew heq =>
      exact ih _ bnew t2 b2 k e (bdAppend_mem_mono heq he) h

theorem foldLLM_mem_insert :
    ∀ (l : List LLMRisk) (r : LLMRisk), r ∈ l →
      ∀ (t : ℚ) (b : Breakdown) (t2 : ℚ) (b2 : Breakdown),
        foldLLM (t, b) l = some (t2, b2) →
        ({ clause_id := "LLM Analysis", risk_type := r.rtype, severity := r.severity,
           score := severityScoreDefault r.severity * catWeight (categorizeLLMRisk r.rtype),
           description := r.description } : BreakdownEntry) ∈
          b2 (categorizeLLMRisk r.rtype) := by
  intro l
  induction l with
  | nil =>
    intro r hr
    exact absurd hr (List.not_mem_nil r)
  | cons x xs ih =>
    intro r hr t b t2 b2 h
    rw [foldLLM] at h
    dsimp only at h
    split at h
    · exact Option.noConfusion h
    · next bnew heq =>
      rcases List.mem_cons.mp hr with h1 | h2
      · subst h1
        exact foldLLM_mem_mono xs _ bnew t2 b2 _ _ (bdAppend_mem_self heq) h
      · exact ih r h2 _ bnew t2 b2 h

/-! ## Rounding lemmas -/

theorem roundHalfEven_le (q : ℚ) : (roundHalfEven q : ℚ) ≤ q + 1/2 := by
  unfold roundHalfEven
  dsimp only
  have hf : (⌊q⌋ : ℚ) ≤ q := Int.floor_le q
  have hf2 : q < ⌊q⌋ + 1 := Int.lt_floor_add_one q
  split
  · linarith
  · split
    · push_cast
      linarith
    · split
      · linarith
      · push_cast
        linarith

theorem roundHalfEven_ge (q : ℚ) : q - 1/2 ≤ (roundHalfEven q : ℚ) := by
  unfold roundHalfEven
  dsimp only
  have hf : (⌊q⌋ : ℚ) ≤ q := Int.floor_le q
  have hf2 : q < ⌊q⌋ + 1 := Int.lt_floor_add_one q
  split
  · linarith
  · split
    · push_cast
      linarith
    · split
      · linarith
      · push_cast
        linarith

theorem roundHalfEven_mono {p q : ℚ} (h : p ≤ q) : roundHalfEven p ≤ roundHalfEven q := by
  rcases eq_or_lt_of_le h with heq | hlt
  · subst heq
    exact le_refl _
  · by_contra hcon
    push_neg at hcon
    have h1 := roundHalfEven_le p
    have h2 := roundHalfEven_ge q
    have h3 : (roundHalfEven q : ℚ) + 1 ≤ (roundHalfEven p : ℚ) := by
      exact_mod_cast Int.add_one_le_iff.mpr hcon
    linarith

theorem round2_mono {p q : ℚ} (h : p ≤ q) : round2 p ≤ round2 q := by
  unfold round2
  have h1 : roundHalfEven (p * 100) ≤ roundHalfEven (q * 100) :=
    roundHalfEven_mono (by linarith)
  have h2 : ((roundHalfEven (p * 100) : ℚ)) ≤ (roundHalfEven (q * 100) : ℚ) := by
    exact_mod_cast h1
  linarith

/-! ## Score update and evaluation -/

theorem clausesTotal_set :
    ∀ (cs : List AnalyzedClause) (i : Nat) (hi : i < cs.length) (f : RiskFinding),
      clausesTotal (cs.set i
        { cs.get ⟨i, hi⟩ with risks := (cs.get ⟨i, hi⟩).risks ++ [f] }) =
      clausesTotal cs + riskScorePure f := by
  intro cs
  induction cs with
  | nil =>
    intro i hi
    exact absurd hi (Nat.not_lt_zero i)
  | cons c cs ih =>
    intro i hi f
    cases i with
    | zero =>
      simp only [List.set, List.get, clausesTotal, List.map_cons, List.sum_cons]
      rw [List.map_append, List.sum_append]
      simp
      ring
    | succ k =>
      have hk : k < cs.length := Nat.lt_of_succ_lt_succ hi
      simp only [List.set, List.get, clausesTotal, List.map_cons, List.sum_cons]
      have h2 := ih k hk f
      simp only [clausesTotal] at h2
      rw [h2]
      ring

theorem assess_eval (cs : List AnalyzedClause) (llm : Option (List LLMRisk))
    (hwf : ∀ c ∈ cs, ∀ r ∈ c.risks, wfRisk r) :
    ∃ b2, assessContractRisk cs llm = some
      { overall_score := round2 (if 0 < cs.length then
            min 100 ((clausesTotal cs + llmTotalOpt llm) / cs.length * 20) else 0),
        overall_level := determineRiskLevel (if 0 < cs.length then
            min 100 ((clausesTotal cs + llmTotalOpt llm) / cs.length * 20) else 0),
        total_risks_found := (breakdownKeys.map (fun k => (b2 k).length)).sum,
        risk_breakdown := b2 } := by
  obtain ⟨b1, hb1⟩ := foldClauses_wf cs 0 initBreakdown hwf
  cases llm with
  | none =>
    refine ⟨b1, ?_⟩
    unfold assessContractRisk
    rw [hb1]
    dsimp only [llmTotalOpt]
    rw [zero_add, add_zero]
  | some l =>
    obtain ⟨b2, hb2⟩ := foldLLM_total l (0 + clausesTotal cs) b1
    refine ⟨b2, ?_⟩
    unfold assessContractRisk
    rw [hb1]
    dsimp only
    rw [hb2]
    dsimp only [llmTotalOpt]
    rw [zero_add]

/-! ## Claim C6 -/

/-- Claim C6 (confirmed): with the clause count held fixed, appending
one HIGH-severity finding (of any breakdown category) to any clause's
risk list never decreases the `overall_score` returned by
`assess_contract_risk` — for any optional list of LLM risks held fixed,
and any well-formed pre-existing findings. -/
theorem c6_score_monotone (cs : List AnalyzedClause) (llm : Option (List LLMRisk))
    (i : Nat) (hi : i < cs.length) (f : RiskFinding) (hsev : f.severity = "HIGH")
    (hcat : f.category ∈ breakdownKeys)
    (hwf : ∀ c ∈ cs, ∀ r ∈ c.risks, wfRisk r) :
    ∃ a a2, assessContractRisk cs llm = some a ∧
      assessContractRisk (cs.set i { cs.get ⟨i, hi⟩ with
        risks := (cs.get ⟨i, hi⟩).risks ++ [f] }) llm = some a2 ∧
      a.overall_score ≤ a2.overall_score := by
  have hwf2 : ∀ c ∈ cs.set i { cs.get ⟨i, hi⟩ with
      risks := (cs.get ⟨i, hi⟩).risks ++ [f] }, ∀ r ∈ c.risks, wfRisk r := by
    intro c hc r hr
    rcases List.mem_or_eq_of_mem_set hc with hmem | heqc
    · exact hwf c hmem r hr
    · subst heqc
      rcases List.mem_append.mp hr with h1 | h2
      · exact hwf _ (List.get_mem cs i hi) r h1
      · rw [List.mem_singleton] at h2
        subst h2
        exact ⟨by rw [hsev]; decide, hcat⟩
  obtain ⟨b1, h1⟩ := assess_eval cs llm hwf
  obtain ⟨b2, h2⟩ := assess_eval _ llm hwf2
  refine ⟨_, _, h1, h2, ?_⟩
  dsimp only
  rw [List.length_set]
  have hn : 0 < cs.length := Nat.lt_of_le_of_lt (Nat.zero_le i) hi
  rw [if_pos hn, if_pos hn]
  apply round2_mono
  apply min_le_min (le_refl (100 : ℚ))
  have hT : clausesTotal cs + llmTotalOpt llm ≤
      clausesTotal (cs.set i { cs.get ⟨i, hi⟩ with
        risks := (cs.get ⟨i, hi⟩).risks ++ [f] }) + llmTotalOpt llm := by
    rw [clausesTotal_set cs i hi f]
    have hsc : 0 ≤ riskScorePure f := by
      unfold riskScorePure
      rw [hsev]
      have h3 : severityScoreDefault "HIGH" = 3 := by decide
      rw [h3]
      exact mul_nonneg (by norm_num) (le_of_lt (catWeight_pos f.category))
    linarith
  have hn2 : (0 : ℚ) < cs.length := by exact_mod_cast hn
  have hdiv := (div_le_div_right hn2).mpr hT
  exact mul_le_mul_of_nonneg_right hdiv (by norm_num)

/-- Witness for `c6_score_monotone`: one risk-free clause, to which a
HIGH liability finding is added. -/
theorem c6_score_monotone_witness :
    ∃ a a2,
      assessContractRisk
          [{ clause_id := "C1", clause_type := "General Provisions", risks := [],
             ambiguities := [], original_text := "t" }] none = some a ∧
      assessContractRisk
          [{ clause_id := "C1", clause_type := "General Provisions",
             risks := [{ risk_type := "Unlimited Liability", severity := "HIGH",
                         category := "liability", description := "d" }],
             ambiguities := [], original_text := "t" }] none = some a2 ∧
      a.overall_score ≤ a2.overall_score := by
  have h := c6_score_monotone
    [{ clause_id := "C1", clause_type := "General Provisions", risks := [],
       ambiguities := [], original_text := "t" }] none 0 (by decide)
    { risk_type := "Unlimited Liability", severity := "HIGH",
      category := "liability", description := "d" } rfl (by decide) (by decide)
  exact h

/-! ## Claim C10 -/

/-- Claim C10 (confirmed): an LLM-supplied risk whose severity string is
none of LOW/MEDIUM/HIGH does not make `assess_contract_risk` raise: the
assessment is returned, and the risk's breakdown entry carries the
original severity string unchanged with score 2 (the MEDIUM default)
times the inferred category's weight. -/
theorem c10_llm_unknown_severity (cs : List AnalyzedClause)
    (hwf : ∀ c ∈ cs, ∀ r ∈ c.risks, wfRisk r) (l : List LLMRisk) (r : LLMRisk)
    (hr : r ∈ l) (hs : r.severity ∉ (["LOW", "MEDIUM", "HIGH"] : List String)) :
    ∃ a, assessContractRisk cs (some l) = some a ∧
      ({ clause_id := "LLM Analysis", risk_type := r.rtype, severity := r.severity,
         score := 2 * catWeight (categorizeLLMRisk r.rtype),
         description := r.description } : BreakdownEntry) ∈
        a.risk_breakdown (categorizeLLMRisk r.rtype) := by
  obtain ⟨b1, hb1⟩ := foldClauses_wf cs 0 initBreakdown hwf
  obtain ⟨b2, hb2⟩ := foldLLM_total l (0 + clausesTotal cs) b1
  have hassess : assessContractRisk cs (some l) = some
      { overall_score := round2 (if 0 < cs.length then
            min 100 ((0 + clausesTotal cs + llmTotal l) / cs.length * 20) else 0),
        overall_level := determineRiskLevel (if 0 < cs.length then
            min 100 ((0 + clausesTotal cs + llmTotal l) / cs.length * 20) else 0),
        total_risks_found := (breakdownKeys.map (fun k => (b2 k).length)).sum,
        risk_breakdown := b2 } := by
    unfold assessContractRisk
    rw [hb1]
    dsimp only
    rw [hb2]
  have hmem := foldLLM_mem_insert l r hr _ b1 _ b2 hb2
  rw [severityScoreDefault_unknown hs] at hmem
  exact ⟨_, hassess, hmem⟩

/-- Witness for `c10_llm_unknown_severity`: one LLM risk with severity
`"SEVERE"`. -/
theorem c10_llm_unknown_severity_witness :
    ∃ a, assessContractRisk []
        (some [{ rtype := "Payment Delay", severity := "SEVERE",
                 description := "d" }]) = some a ∧
      ({ clause_id := "LLM Analysis", risk_type := "Payment Delay", severity := "SEVERE",
         score := 2 * catWeight (categorizeLLMRisk "Payment Delay"),
         description := "d" } : BreakdownEntry) ∈
        a.risk_breakdown (categorizeLLMRisk "Payment Delay") := by
  have h := c10_llm_unknown_severity [] (by simp)
    [{ rtype := "Payment Delay", severity := "SEVERE", description := "d" }]
    { rtype := "Payment Delay", severity := "SEVERE", description := "d" }
    (by decide) (by decide)
  exact h
